import Mathlib

/-!
Verification development for the MA5-support backtesting engine
(`core/backtest_runner_MA5.py`) and its summary generators (including the
standalone First-Day tester copy of `generate_daily_summary`).

The embedding is shallow: each Python function of the engine is translated
into an executable Lean definition over exact rational arithmetic (`ℚ`).
Python's bounded `for` loops are rendered as fuel-indexed structural
recursions (the fuel is always at least the remaining number of rows, so
exhaustion never occurs on the calls the engine makes).  Python `round(x, n)`
is modelled as round-half-up on the n-th decimal; the binary floating point
tie behaviour of CPython is not modelled (no computation below hits a tie).
-/

set_option maxRecDepth 8000

/-- One daily bar of a symbol's series: one row of the input dataframe of
`run_backtest` (columns 일자, 시가, 고가, 저가, 종가, 거래대금, 등락률,
MA_5, MA_10, MA_20, 외국인_순매수, 기관_순매수).  Dates are abstracted as
integers; the engine sorts rows by date, and the data model guarantees
strictly increasing dates with no duplicates. -/
structure Bar where
  date : ℤ
  open_ : ℚ
  high : ℚ
  low : ℚ
  close : ℚ
  value : ℚ
  rate : ℚ
  ma5 : ℚ
  ma10 : ℚ
  ma20 : ℚ
  foreign : ℚ
  institution : ℚ
deriving DecidableEq, Repr, Inhabited

/-- The six nullable threshold parameters of `run_backtest`
(`min_rate, max_rate, min_volume, max_volume, min_foreign, min_institution`);
`none` models the empty-string/None "disabled" case. -/
structure Params where
  min_rate : Option ℚ
  max_rate : Option ℚ
  min_volume : Option ℚ
  max_volume : Option ℚ
  min_foreign : Option ℚ
  min_institution : Option ℚ
deriving DecidableEq, Repr, Inhabited

/-- The `outcome` field of a trade record: the source strings `'win'`/`'loss'`. -/
inductive Outcome
  | win
  | loss
deriving DecidableEq, Repr, Inhabited

/-- The fields of the result dict appended by `run_backtest` that this
development reasons about.  The three indices are the loop indices at which
the trigger, entry and exit were resolved (the spec's Trigger/Entry/Exit
Events carry exactly these indices); the remaining fields are the
corresponding dict entries. -/
structure TradeRecord where
  triggerIdx : ℕ
  entryIdx : ℕ
  exitIdx : ℕ
  trigger_date : ℤ
  entry_date : ℤ
  exit_date : ℤ
  entry_price : ℚ
  exit_price : ℚ
  target_price : ℚ
  return_pct : ℚ
  outcome : Outcome
  spread_ma5_10 : ℚ
  risk_to_reward : Option ℚ
  max_drawdown : ℚ
  max_gain_pct : ℚ
deriving DecidableEq, Repr, Inhabited

/-- Python `round(x, 2)`: round half-up to 2 decimal places
(`round x = ⌊x + 1/2⌋` on the scaled value). -/
def round2 (q : ℚ) : ℚ := ((⌊q * 100 + 1/2⌋ : ℤ) : ℚ) / 100

/-- Python `round(x, 4)`: round half-up to 4 decimal places. -/
def round4 (q : ℚ) : ℚ := ((⌊q * 10000 + 1/2⌋ : ℤ) : ℚ) / 10000

/-- Row access `df.loc[i]`: total via the default bar, as every access the
engine performs is in bounds. -/
def bar (df : List Bar) (i : ℕ) : Bar := df.getD i default

/-- Source `calculate_target_price`: target from the MA5/MA10 spread,
rounded to 2 decimals. -/
def calculate_target_price (entry_price ma5 ma10 : ℚ) : ℚ :=
  round2 (entry_price * (1 + (ma5 - ma10) / ma10))

/-- Source `calculate_return`: percent return, rounded to 2 decimals. -/
def calculate_return (entry_price exit_price : ℚ) : ℚ :=
  round2 ((exit_price - entry_price) / entry_price * 100)

/-- Source `is_valid_entry`: the 정배열 check `MA_5 > MA_10 > MA_20`. -/
def is_valid_entry (b : Bar) : Prop := b.ma5 > b.ma10 ∧ b.ma10 > b.ma20

instance (b : Bar) : Decidable (is_valid_entry b) := instDecidableAnd

/-- One enabled-minimum threshold comparison `value > threshold`
(`None` thresholds always pass). -/
def passMin (t : Option ℚ) (v : ℚ) : Bool :=
  match t with
  | none => true
  | some r => decide (v > r)

/-- One enabled-maximum threshold comparison `value < threshold`
(`None` thresholds always pass). -/
def passMax (t : Option ℚ) (v : ℚ) : Bool :=
  match t with
  | none => true
  | some r => decide (v < r)

/-- The six threshold conjuncts of the trigger condition of `run_backtest`
(lines 105-110): strict comparisons, each skipped when disabled. -/
def thresholdsPass (p : Params) (b : Bar) : Bool :=
  passMin p.min_rate b.rate && passMax p.max_rate b.rate &&
  passMin p.min_volume b.value && passMax p.max_volume b.value &&
  passMin p.min_foreign b.foreign && passMin p.min_institution b.institution

/-- The flat-day scan of the trigger filter: walks the rate list keeping a
count of consecutive zeros, reporting once the count reaches 3. -/
def zeroRun : ℕ → List ℚ → Bool
  | _, [] => false
  | cnt, r :: rest =>
    if r = 0 then
      if cnt + 1 ≥ 3 then true else zeroRun (cnt + 1) rest
    else zeroRun 0 rest

/-- Source flat-day filter body: `has_3_or_more_consecutive_zeros` over a
rate window. -/
def hasThreeConsecutiveZeros (l : List ℚ) : Bool := zeroRun 0 l

/-- The rate window `df.loc[max(0, idx - 20) : idx - 1, '등락률']` (both ends
inclusive): the trailing bars strictly before `idx`, at most 20 of them.
Natural subtraction renders the `max(0, ·)` clamp. -/
def past20Rates (df : List Bar) (idx : ℕ) : List ℚ :=
  (List.range (idx - (idx - 20))).map (fun k => (bar df (idx - 20 + k)).rate)

/-- The full trigger qualification of `run_backtest` (lines 104-146) for the
bar at `idx` (callers guarantee `1 ≤ idx < df.length`): thresholds, previous
rate strictly above -10, close at least 5% above MA5, the two MA-ratio
rejects, the gap-down reject, and the flat-day filter. -/
def isTrigger (df : List Bar) (p : Params) (idx : ℕ) : Bool :=
  thresholdsPass p (bar df idx) &&
  decide ((bar df (idx - 1)).rate > -10) &&
  decide ((bar df idx).close ≥ (bar df idx).ma5 * 1.05) &&
  !decide (((bar df idx).ma20 - (bar df idx).ma10) / (bar df idx).ma10 * 100 > 4) &&
  !decide (((bar df idx).ma10 - (bar df idx).ma5) / (bar df idx).ma5 * 100 > 5) &&
  !decide (((bar df idx).open_ - (bar df (idx - 1)).close) / (bar df (idx - 1)).close * 100 < -10) &&
  !hasThreeConsecutiveZeros (past20Rates df idx)

/-- The entry condition `crossed_down_ma5`: any of low, high, open, close
below the bar's MA5. -/
def crossedDownMa5 (b : Bar) : Bool :=
  decide (b.low < b.ma5) || decide (b.high < b.ma5) ||
  decide (b.open_ < b.ma5) || decide (b.close < b.ma5)

/-- The entry loop of `run_backtest` (lines 165-206), scanning forward from
`j`: at the first crossed-down bar, abandon if the open is below MA10, else
price the entry (gap-down open / MA5 overlap / fallback open), then abandon
on a thin spread or a broken 정배열; otherwise accept.  `none` models the
Python state `entry_idx is None or entry_price is None`. -/
def entryLoop (df : List Bar) : ℕ → ℕ → Option (ℕ × ℚ)
  | 0, _ => none
  | fuel + 1, j =>
    if j < df.length then
      let b := bar df j
      if crossedDownMa5 b then
        if b.open_ < b.ma10 then none
        else
          let price :=
            if b.open_ < b.ma5 then b.open_
            else if b.low ≤ b.ma5 ∧ b.ma5 ≤ b.high then b.ma5
            else b.open_
          if (b.ma5 - b.ma10) / b.ma10 * 100 < 3 then none
          else if ¬ is_valid_entry b then none
          else some (j, price)
      else entryLoop df fuel (j + 1)
    else none

/-- Entry resolution for the trigger at `idx`: the loop starts at the bar
after the trigger.  The fuel `df.length + 1` covers every reachable
position. -/
def findEntry (df : List Bar) (idx : ℕ) : Option (ℕ × ℚ) :=
  entryLoop df (df.length + 1) (idx + 1)

/-- The exit loop of `run_backtest` (lines 248-295) positioned at bar `j`:
both conditions hit is an immediate loss (open if gapped below MA10, else
MA10); a target-only hit on the entry bar itself is skipped; a later
target-only hit is a win at the target; an MA10-only hit is a loss. -/
def exitLoop (df : List Bar) (entryIdx : ℕ) (target : ℚ) : ℕ → ℕ → Option (ℕ × ℚ × Outcome)
  | 0, _ => none
  | fuel + 1, j =>
    if j < df.length then
      let b := bar df j
      let openedBelow := b.open_ < b.ma10
      let hitTarget := b.high ≥ target
      let hitMa10 := b.low ≤ b.ma10 ∨ openedBelow
      if hitTarget ∧ hitMa10 then
        some (j, if openedBelow then b.open_ else b.ma10, Outcome.loss)
      else if j = entryIdx ∧ hitTarget ∧ ¬ hitMa10 then
        exitLoop df entryIdx target fuel (j + 1)
      else if hitTarget then some (j, target, Outcome.win)
      else if hitMa10 then
        some (j, if openedBelow then b.open_ else b.ma10, Outcome.loss)
      else exitLoop df entryIdx target fuel (j + 1)
    else none

/-- The exit scan from position `j` (the engine starts it at the entry bar). -/
def exitScan (df : List Bar) (entryIdx : ℕ) (target : ℚ) (j : ℕ) : Option (ℕ × ℚ × Outcome) :=
  exitLoop df entryIdx target (df.length + 1) j

/-- The running `max_drawdown` accumulated over the rows the exit loop
visits (entry bar through exit bar inclusive), starting from 0. -/
def maxDrawdownUpTo (df : List Bar) (entryIdx exitIdx : ℕ) (entryPrice : ℚ) : ℚ :=
  ((List.range (exitIdx + 1 - entryIdx)).map
    (fun k => ((bar df (entryIdx + k)).low - entryPrice) / entryPrice * 100)).foldl min 0

/-- The `max_high_until_ma10` loop (lines 305-321): stop before any bar whose
low touches MA10; otherwise include the bar's high only when it opened at or
above MA10. -/
def gainLoop (df : List Bar) : ℕ → ℕ → Option ℚ → Option ℚ
  | 0, _, acc => acc
  | fuel + 1, i, acc =>
    if i < df.length then
      let b := bar df i
      if b.low ≤ b.ma10 then acc
      else if b.open_ ≥ b.ma10 then
        gainLoop df fuel (i + 1)
          (some (match acc with | none => b.high | some m => max m b.high))
      else gainLoop df fuel (i + 1) acc
    else acc

/-- The per-trigger body of `run_backtest` after a qualified trigger at
`idx`: entry resolution, the redundant 정배열 re-check, target computation,
exit resolution, and assembly of the result record.  `none` is the Python
`continue` (no trade for this trigger). -/
def processTrigger (df : List Bar) (idx : ℕ) : Option TradeRecord :=
  match findEntry df idx with
  | none => none
  | some (entryIdx, entryPrice) =>
    let eb := bar df entryIdx
    if ¬ is_valid_entry eb then none
    else
      let target := calculate_target_price entryPrice eb.ma5 eb.ma10
      match exitScan df entryIdx target entryIdx with
      | none => none
      | some (exitIdx, exitPrice, outc) =>
        let xb := bar df exitIdx
        let spread := round2 ((eb.ma5 - eb.ma10) / eb.ma10 * 100)
        let ret := calculate_return entryPrice exitPrice
        let mg : ℚ :=
          if xb.date ≠ eb.date then
            match gainLoop df (df.length + 1) (entryIdx + 1) none with
            | some m => round2 ((m - entryPrice) / entryPrice * 100)
            | none => 0
          else 0
        some
          { triggerIdx := idx
            entryIdx := entryIdx
            exitIdx := exitIdx
            trigger_date := (bar df idx).date
            entry_date := eb.date
            exit_date := xb.date
            entry_price := entryPrice
            exit_price := exitPrice
            target_price := target
            return_pct := ret
            outcome := outc
            spread_ma5_10 := spread
            risk_to_reward := if spread = 0 then none else some (round4 (ret / spread))
            max_drawdown := round2 (maxDrawdownUpTo df entryIdx exitIdx entryPrice)
            max_gain_pct := mg }

/-- The main `for idx, row in df.iterrows()` loop of `run_backtest`,
consuming the list of row indices with the re-arm gate
(`waiting_for_ma20_dip`) and the accumulated results as state.  Index 0 is
skipped; in manual mode every row whose date differs from the forced date is
skipped; while the gate is set, rows are skipped until a close below MA20
clears it (the clearing row itself is then examined); a qualified trigger
that completes a trade appends one record and sets the gate. -/
def scanLoop (df : List Bar) (p : Params) (m : Option ℤ) :
    List ℕ → Bool → List TradeRecord → List TradeRecord
  | [], _, acc => acc
  | idx :: rest, gate, acc =>
    if idx = 0 then scanLoop df p m rest gate acc
    else if (match m with | some d => decide ((bar df idx).date ≠ d) | none => false) then
      scanLoop df p m rest gate acc
    else if gate = true ∧ ¬ ((bar df idx).close < (bar df idx).ma20) then
      scanLoop df p m rest gate acc
    else if isTrigger df p idx then
      match processTrigger df idx with
      | some rec => scanLoop df p m rest true (acc ++ [rec])
      | none => scanLoop df p m rest false acc
    else scanLoop df p m rest false acc

/-- Source `run_backtest` restricted to the fields this development tracks:
one pass over one symbol's sorted series, returning the list of completed
trade records in order. -/
def run_backtest (df : List Bar) (p : Params) (m : Option ℤ) : List TradeRecord :=
  scanLoop df p m (List.range df.length) false []

/-- Row labels of a daily-summary table: one row per date plus the appended
`Total` and `Average` rows. -/
inductive RowLabel
  | date (d : ℤ)
  | total
  | average
deriving DecidableEq, Repr, Inhabited

/-- One row of a daily summary: the columns built by
`generate_daily_summary` (return sum, trade count, the three group means,
risk/reward sum and mean, bought/sold/held counts).  `rrAvg` is an `Option`
because the pandas mean of an all-null risk/reward group is NaN. -/
structure SummaryRow where
  label : RowLabel
  returnSum : ℚ
  nTrades : ℚ
  maxGainAvg : ℚ
  maxDrawdownAvg : ℚ
  spreadAvg : ℚ
  rrSum : ℚ
  rrAvg : Option ℚ
  nBought : ℚ
  nSold : ℚ
  nHeld : ℚ
deriving DecidableEq, Repr, Inhabited

/-- The group `df[df.entry_date == d]` of the `groupby('entry_date')`. -/
def entriesOn (recs : List TradeRecord) (d : ℤ) : List TradeRecord :=
  recs.filter (fun r => r.entry_date == d)

/-- The `exit_date` value counts at date `d` (`# of stocks sold`). -/
def soldCount (recs : List TradeRecord) (d : ℤ) : ℕ :=
  (recs.filter (fun r => r.exit_date == d)).length

/-- The held count at date `d`: records whose `[entry_date, exit_date]`
interval covers `d`. -/
def heldCount (recs : List TradeRecord) (d : ℤ) : ℕ :=
  (recs.filter (fun r => decide (r.entry_date ≤ d) && decide (d ≤ r.exit_date))).length

/-- The summary row the engine's `generate_daily_summary` produces for an
entry date `d` of its groupby index: group sums and means, the sold and held
counts mapped onto the index, all cells rounded to 2 decimals by
`summary.round(2)`.  The risk/reward sum skips nulls (pandas `sum` of NaN);
its mean is NaN (`none`) when the whole group is null. -/
def groupRow (recs : List TradeRecord) (d : ℤ) : SummaryRow :=
  let g := entriesOn recs d
  let n : ℚ := g.length
  let rrVals := (g.map (fun r => r.risk_to_reward)).reduceOption
  { label := RowLabel.date d
    returnSum := round2 (g.map (fun r => r.return_pct)).sum
    nTrades := round2 n
    maxGainAvg := round2 ((g.map (fun r => r.max_gain_pct)).sum / n)
    maxDrawdownAvg := round2 ((g.map (fun r => r.max_drawdown)).sum / n)
    spreadAvg := round2 ((g.map (fun r => r.spread_ma5_10)).sum / n)
    rrSum := round2 rrVals.sum
    rrAvg := if rrVals.length = 0 then none
             else some (round2 (rrVals.sum / (rrVals.length : ℚ)))
    nBought := round2 n
    nSold := round2 ((soldCount recs d : ℕ) : ℚ)
    nHeld := round2 ((heldCount recs d : ℕ) : ℚ) }

/-- The summary row the First-Day tester's `generate_daily_summary`
produces for a calendar date `d` of the full reindexed span: the same group
statistics, except that the whole-frame `reindex(full_dates).fillna(0)`
replaces every NaN (including an all-null risk/reward mean) by 0 before the
rounding, so every statistic of a date without entries is 0. -/
def toolRow (recs : List TradeRecord) (d : ℤ) : SummaryRow :=
  let g := entriesOn recs d
  let n : ℚ := g.length
  let rrVals := (g.map (fun r => r.risk_to_reward)).reduceOption
  { label := RowLabel.date d
    returnSum := round2 (g.map (fun r => r.return_pct)).sum
    nTrades := round2 n
    maxGainAvg := round2 ((g.map (fun r => r.max_gain_pct)).sum / n)
    maxDrawdownAvg := round2 ((g.map (fun r => r.max_drawdown)).sum / n)
    spreadAvg := round2 ((g.map (fun r => r.spread_ma5_10)).sum / n)
    rrSum := round2 rrVals.sum
    rrAvg := some (round2 (if rrVals.length = 0 then 0 else rrVals.sum / (rrVals.length : ℚ)))
    nBought := round2 n
    nSold := round2 ((soldCount recs d : ℕ) : ℚ)
    nHeld := round2 ((heldCount recs d : ℕ) : ℚ) }

/-- `df['entry_date'].min()` over a nonempty record table (0 on the empty
table, which the orchestrator never passes to the summaries). -/
def minEntry : List TradeRecord → ℤ
  | [] => 0
  | r :: rs => rs.foldl (fun acc x => min acc x.entry_date) r.entry_date

/-- `df['entry_date'].max()`. -/
def maxEntry : List TradeRecord → ℤ
  | [] => 0
  | r :: rs => rs.foldl (fun acc x => max acc x.entry_date) r.entry_date

/-- `df['exit_date'].max()`. -/
def maxExit : List TradeRecord → ℤ
  | [] => 0
  | r :: rs => rs.foldl (fun acc x => max acc x.exit_date) r.exit_date

/-- `pd.date_range(a, b)`: every calendar date from `a` to `b` inclusive. -/
def dateRange (a b : ℤ) : List ℤ :=
  (List.range (b + 1 - a).toNat).map (fun (k : ℕ) => a + (k : ℤ))

/-- The index of the engine's daily summary: the groupby index, that is the
sorted distinct entry dates occurring in the table (rendered as the filter
of the spanned range down to the dates actually present). -/
def engineIndex (recs : List TradeRecord) : List ℤ :=
  (dateRange (minEntry recs) (maxEntry recs)).filter
    (fun d => recs.any (fun r => r.entry_date == d))

/-- The appended `Total` row: per-column sums over the date rows (pandas
`sum` skips the NaN cells of the risk/reward-mean column and yields a
number even when all are NaN). -/
def totalRow (rows : List SummaryRow) : SummaryRow :=
  { label := RowLabel.total
    returnSum := (rows.map (fun r => r.returnSum)).sum
    nTrades := (rows.map (fun r => r.nTrades)).sum
    maxGainAvg := (rows.map (fun r => r.maxGainAvg)).sum
    maxDrawdownAvg := (rows.map (fun r => r.maxDrawdownAvg)).sum
    spreadAvg := (rows.map (fun r => r.spreadAvg)).sum
    rrSum := (rows.map (fun r => r.rrSum)).sum
    rrAvg := some ((rows.map (fun r => r.rrAvg)).reduceOption.sum)
    nBought := (rows.map (fun r => r.nBought)).sum
    nSold := (rows.map (fun r => r.nSold)).sum
    nHeld := (rows.map (fun r => r.nHeld)).sum }

/-- The appended `Average` row: per-column means over the date rows, with
the risk/reward-mean column averaged over its non-NaN cells only (NaN when
there are none). -/
def averageRow (rows : List SummaryRow) : SummaryRow :=
  let n : ℚ := rows.length
  let rrVals := (rows.map (fun r => r.rrAvg)).reduceOption
  { label := RowLabel.average
    returnSum := (rows.map (fun r => r.returnSum)).sum / n
    nTrades := (rows.map (fun r => r.nTrades)).sum / n
    maxGainAvg := (rows.map (fun r => r.maxGainAvg)).sum / n
    maxDrawdownAvg := (rows.map (fun r => r.maxDrawdownAvg)).sum / n
    spreadAvg := (rows.map (fun r => r.spreadAvg)).sum / n
    rrSum := (rows.map (fun r => r.rrSum)).sum / n
    rrAvg := if rrVals.length = 0 then none else some (rrVals.sum / (rrVals.length : ℚ))
    nBought := (rows.map (fun r => r.nBought)).sum / n
    nSold := (rows.map (fun r => r.nSold)).sum / n
    nHeld := (rows.map (fun r => r.nHeld)).sum / n }

/-- The engine's `generate_daily_summary` (backtest_runner_MA5.py lines
392-438): rows indexed by the groupby index (the distinct entry dates), with
`Total` and `Average` rows appended at the bottom.  There is no reindexing
over the calendar span. -/
def generate_daily_summary (recs : List TradeRecord) : List SummaryRow :=
  let rows := (engineIndex recs).map (groupRow recs)
  rows ++ [totalRow rows, averageRow rows]

/-- The First-Day tester's `generate_daily_summary` (unnamed/part_000 lines
18-62): the group statistics reindexed over the full calendar range from the
earliest entry date to the latest exit date with missing dates filled 0,
then `Total` and `Average` rows appended. -/
def firstDay_generate_daily_summary (recs : List TradeRecord) : List SummaryRow :=
  let rows := (dateRange (minEntry recs) (maxExit recs)).map (toolRow recs)
  rows ++ [totalRow rows, averageRow rows]

/-- Helper building a bar with zero traded value and zero net-buy columns
(those fields only matter when the corresponding thresholds are enabled). -/
def mkBar (date : ℤ) (o h l c m5 m10 m20 rate : ℚ) : Bar :=
  { date := date, open_ := o, high := h, low := l, close := c, value := 0,
    rate := rate, ma5 := m5, ma10 := m10, ma20 := m20, foreign := 0, institution := 0 }

/-- All six thresholds disabled. -/
def pnone : Params :=
  { min_rate := none, max_rate := none, min_volume := none,
    max_volume := none, min_foreign := none, min_institution := none }

/-- A five-bar series producing two loss trades whose windows overlap: the
trigger at index 1 enters at 2 and exits at 4, while the bar at index 3 both
clears the re-arm gate (close 106 below MA20 108) and qualifies as a second
trigger, entering and exiting at 4. -/
def lossDf : List Bar :=
  [mkBar 10 100 100 100 100 100 100 100 1,
   mkBar 11 100 106 100 105 100 100 100 1,
   mkBar 12 105 106 103 104 104 100 99 1,
   mkBar 13 106 107 105 106 100 104 108 1,
   mkBar 14 105 106 100 104 104 100 99 1]

/-- A four-bar series producing a single win trade: trigger at 1, entry at 2
at price 104 (target 108.16), win at bar 3 whose high 110 clears the target
with MA10 untouched. -/
def winDf : List Bar :=
  [mkBar 10 100 100 100 100 100 100 100 1,
   mkBar 11 100 106 100 105 100 100 100 1,
   mkBar 12 105 106 103 104 104 100 99 1,
   mkBar 13 106 110 105 108 104 100 99 1]

/-- A four-bar series producing one loss trade whose recorded MA5-MA10
spread is 3.09 and return is -3.00, so the recorded risk/reward -0.9709 is
a strictly rounded quotient. -/
def rrDf : List Bar :=
  [mkBar 10 100 100 100 100 100 100 100 1,
   mkBar 11 100 106 100 105 100 100 100 1,
   mkBar 12 101 102 99 101 100 97 96 1,
   mkBar 13 98 99 96 97 99 97 96 1]

/-- A two-bar series whose bar 1 satisfies every trigger condition except
that the previous bar's percent change is exactly -10. -/
def c3Df : List Bar :=
  [mkBar 10 100 100 100 100 100 100 100 (-10),
   mkBar 11 100 106 100 105 100 100 100 1]

/-- The first trade of `lossDf`. -/
def lossRec1 : TradeRecord :=
  { triggerIdx := 1, entryIdx := 2, exitIdx := 4,
    trigger_date := 11, entry_date := 12, exit_date := 14,
    entry_price := 104, exit_price := 100, target_price := 2704/25,
    return_pct := -77/20, outcome := Outcome.loss, spread_ma5_10 := 4,
    risk_to_reward := some (-77/80), max_drawdown := -77/20, max_gain_pct := 72/25 }

/-- The second trade of `lossDf`, triggered at index 3 strictly inside the
first trade's trigger-to-exit window. -/
def lossRec2 : TradeRecord :=
  { triggerIdx := 3, entryIdx := 4, exitIdx := 4,
    trigger_date := 13, entry_date := 14, exit_date := 14,
    entry_price := 104, exit_price := 100, target_price := 2704/25,
    return_pct := -77/20, outcome := Outcome.loss, spread_ma5_10 := 4,
    risk_to_reward := some (-77/80), max_drawdown := -77/20, max_gain_pct := 0 }

/-- The single win trade of `winDf`. -/
def winRec : TradeRecord :=
  { triggerIdx := 1, entryIdx := 2, exitIdx := 3,
    trigger_date := 11, entry_date := 12, exit_date := 13,
    entry_price := 104, exit_price := 2704/25, target_price := 2704/25,
    return_pct := 4, outcome := Outcome.win, spread_ma5_10 := 4,
    risk_to_reward := some 1, max_drawdown := -24/25, max_gain_pct := 577/100 }

/-- The single loss trade of `rrDf`: spread 3.09, return -3, recorded
risk/reward -0.9709 while the exact quotient is -100/103. -/
def rrRec : TradeRecord :=
  { triggerIdx := 1, entryIdx := 2, exitIdx := 3,
    trigger_date := 11, entry_date := 12, exit_date := 13,
    entry_price := 100, exit_price := 97, target_price := 10309/100,
    return_pct := -3, outcome := Outcome.loss, spread_ma5_10 := 309/100,
    risk_to_reward := some (-9709/10000), max_drawdown := -4, max_gain_pct := 0 }

/-- Two hand-made trade records for exercising the daily summaries: entry
dates 10 and 12, latest exit 14, so the full calendar span is 10..14 while
only 10 and 12 carry entries. -/
def recs2 : List TradeRecord :=
  [{ triggerIdx := 1, entryIdx := 2, exitIdx := 3,
     trigger_date := 9, entry_date := 10, exit_date := 11,
     entry_price := 100, exit_price := 101, target_price := 101,
     return_pct := 1, outcome := Outcome.win, spread_ma5_10 := 4,
     risk_to_reward := some (1/4), max_drawdown := 0, max_gain_pct := 0 },
   { triggerIdx := 5, entryIdx := 6, exitIdx := 8,
     trigger_date := 11, entry_date := 12, exit_date := 14,
     entry_price := 100, exit_price := 98, target_price := 103,
     return_pct := -2, outcome := Outcome.loss, spread_ma5_10 := 3,
     risk_to_reward := some (-2/3), max_drawdown := -2, max_gain_pct := 0 }]

/-- The threshold-independent part of the spec's trigger description
(section 4.1), written from the spec's words: close at least 5% above MA5,
MA20 at most 4% above MA10, MA10 at most 5% above MA5, open-vs-previous-
close gap at least -10%, and no run of three consecutive zero-rate days in
the trailing window. -/
def specTriggerBase (df : List Bar) (p : Params) (idx : ℕ) : Prop :=
  thresholdsPass p (bar df idx) = true ∧
  (bar df idx).close ≥ (bar df idx).ma5 * 1.05 ∧
  ((bar df idx).ma20 - (bar df idx).ma10) / (bar df idx).ma10 * 100 ≤ 4 ∧
  ((bar df idx).ma10 - (bar df idx).ma5) / (bar df idx).ma5 * 100 ≤ 5 ∧
  ((bar df idx).open_ - (bar df (idx - 1)).close) / (bar df (idx - 1)).close * 100 ≥ -10 ∧
  hasThreeConsecutiveZeros (past20Rates df idx) = false

/-- Claim C3's trigger description as stated: the previous bar's percent
change was "not below -10", meaning at least -10. -/
def specTriggerC3 (df : List Bar) (p : Params) (idx : ℕ) : Prop :=
  specTriggerBase df p idx ∧ (bar df (idx - 1)).rate ≥ -10

/-- The amended trigger description: the previous bar's percent change is
strictly above -10, as the source comparison is strict. -/
def specTriggerAmended (df : List Bar) (p : Params) (idx : ℕ) : Prop :=
  specTriggerBase df p idx ∧ (bar df (idx - 1)).rate > -10

/-- The spec's entry-candidate condition: any of low, high, open, close
below the bar's MA5. -/
def isEntryCandidate (b : Bar) : Prop :=
  b.low < b.ma5 ∨ b.high < b.ma5 ∨ b.open_ < b.ma5 ∨ b.close < b.ma5

/-- The spec's decision on the first entry-candidate bar (section 4.2),
written from the spec's bullet list: abandon when the open is below MA10;
otherwise price the entry as open (gap-down), MA5 (overlap) or open
(fallback); abandon when the MA5-MA10 spread is below 3% or the candidate
bar is not in 정배열. -/
def entryDecisionSpec (b : Bar) : Option ℚ :=
  if b.open_ < b.ma10 then none
  else
    let price :=
      if b.open_ < b.ma5 then b.open_
      else if b.low ≤ b.ma5 ∧ b.ma5 ≤ b.high then b.ma5
      else b.open_
    if (b.ma5 - b.ma10) / b.ma10 * 100 < 3 then none
    else if ¬ (b.ma5 > b.ma10 ∧ b.ma10 > b.ma20) then none
    else some price

/-- A qualifying re-arm dip at index `c`: a bar whose close falls below its
MA20, which is what clears `waiting_for_ma20_dip`. -/
def DipAt (df : List Bar) (c : ℕ) : Prop :=
  c < df.length ∧ (bar df c).close < (bar df c).ma20

/-- The relation maintained between any two successive trade records of one
pass: strictly increasing trigger indices, with a qualifying MA20 dip
strictly after the earlier trigger and no later than the later trigger. -/
def trigChain (df : List Bar) (a b : TradeRecord) : Prop :=
  a.triggerIdx < b.triggerIdx ∧
  ∃ c, a.triggerIdx < c ∧ c ≤ b.triggerIdx ∧ DipAt df c

/-- Strictly increasing dates along the series: the engine sorts by 일자 and
the data model forbids duplicate dates. -/
def DatesStrictMono (df : List Bar) : Prop :=
  ∀ j, j < df.length → ∀ i, i < j → (bar df i).date < (bar df j).date

instance (df : List Bar) : Decidable (DatesStrictMono df) :=
  decidable_of_iff
    (∀ j, j < df.length → ∀ i, i < j → (bar df i).date < (bar df j).date) Iff.rfl

lemma range_one_eq : List.range 1 = [0] := by decide

lemma range_two_eq : List.range 2 = [0, 1] := by decide

lemma range_three_eq : List.range 3 = [0, 1, 2] := by decide

lemma range_four_eq : List.range 4 = [0, 1, 2, 3] := by decide

/-- Full evaluation of the engine on `winDf`: one win trade. -/
lemma winDf_run : run_backtest winDf pnone none = [winRec] := by
  have hr : List.range winDf.length = [0, 1, 2, 3] := by decide
  rw [run_backtest, hr]
  norm_num [scanLoop, isTrigger, processTrigger, findEntry, entryLoop, exitScan, exitLoop,
    gainLoop, maxDrawdownUpTo, calculate_target_price, calculate_return, round2, round4,
    thresholdsPass, passMin, passMax, hasThreeConsecutiveZeros, zeroRun, past20Rates,
    crossedDownMa5, is_valid_entry, bar, winDf, mkBar, pnone, winRec,
    range_one_eq, range_two_eq, range_three_eq, range_four_eq, min_def, max_def]

/-- Full evaluation of the engine on `lossDf`: two loss trades with
overlapping trigger-to-exit windows. -/
lemma lossDf_run : run_backtest lossDf pnone none = [lossRec1, lossRec2] := by
  have hr : List.range lossDf.length = [0, 1, 2, 3, 4] := by decide
  rw [run_backtest, hr]
  norm_num [scanLoop, isTrigger, processTrigger, findEntry, entryLoop, exitScan, exitLoop,
    gainLoop, maxDrawdownUpTo, calculate_target_price, calculate_return, round2, round4,
    thresholdsPass, passMin, passMax, hasThreeConsecutiveZeros, zeroRun, past20Rates,
    crossedDownMa5, is_valid_entry, bar, lossDf, mkBar, pnone, lossRec1, lossRec2,
    range_one_eq, range_two_eq, range_three_eq, range_four_eq, min_def, max_def]

/-- Full evaluation of the engine on `rrDf`: one loss trade with a
risk/reward value that is strictly rounded. -/
lemma rrDf_run : run_backtest rrDf pnone none = [rrRec] := by
  have hr : List.range rrDf.length = [0, 1, 2, 3] := by decide
  rw [run_backtest, hr]
  norm_num [scanLoop, isTrigger, processTrigger, findEntry, entryLoop, exitScan, exitLoop,
    gainLoop, maxDrawdownUpTo, calculate_target_price, calculate_return, round2, round4,
    thresholdsPass, passMin, passMax, hasThreeConsecutiveZeros, zeroRun, past20Rates,
    crossedDownMa5, is_valid_entry, bar, rrDf, mkBar, pnone, rrRec,
    range_one_eq, range_two_eq, range_three_eq, range_four_eq, min_def, max_def]

lemma exitLoop_some_bounds (df : List Bar) (e : ℕ) (t : ℚ) :
    ∀ fuel j k pr o, exitLoop df e t fuel j = some (k, pr, o) → j ≤ k ∧ k < df.length := by
  intro fuel
  induction fuel with
  | zero => intro j k pr o h; exact absurd h (by simp [exitLoop])
  | succ fuel ih =>
    intro j k pr o h
    simp only [exitLoop] at h
    split at h
    case isFalse => exact absurd h (by simp)
    case isTrue hj =>
      split at h
      · simp only [Option.some.injEq, Prod.mk.injEq] at h
        exact ⟨le_of_eq h.1, h.1 ▸ hj⟩
      · split at h
        · have := ih _ _ _ _ h
          omega
        · split at h
          · simp only [Option.some.injEq, Prod.mk.injEq] at h
            exact ⟨le_of_eq h.1, h.1 ▸ hj⟩
          · split at h
            · simp only [Option.some.injEq, Prod.mk.injEq] at h
              exact ⟨le_of_eq h.1, h.1 ▸ hj⟩
            · have := ih _ _ _ _ h
              omega

lemma exitLoop_win_facts (df : List Bar) (e : ℕ) (t : ℚ) :
    ∀ fuel j k pr, exitLoop df e t fuel j = some (k, pr, Outcome.win) → pr = t ∧ k ≠ e := by
  intro fuel
  induction fuel with
  | zero => intro j k pr h; exact absurd h (by simp [exitLoop])
  | succ fuel ih =>
    intro j k pr h
    simp only [exitLoop] at h
    split at h
    case isFalse => exact absurd h (by simp)
    case isTrue hj =>
      split at h
      case isTrue hboth =>
        simp only [Option.some.injEq, Prod.mk.injEq] at h
        exact absurd h.2.2 (by simp)
      case isFalse hboth =>
        split at h
        case isTrue hskip => exact ih _ _ _ h
        case isFalse hskip =>
          split at h
          case isTrue hT =>
            simp only [Option.some.injEq, Prod.mk.injEq] at h
            refine ⟨h.2.1.symm, ?_⟩
            intro hke
            have hje : j = e := by omega
            by_cases hM : (bar df j).low ≤ (bar df j).ma10 ∨ (bar df j).open_ < (bar df j).ma10
            · exact hboth ⟨hT, hM⟩
            · exact hskip ⟨hje, hT, hM⟩
          case isFalse hT =>
            split at h
            · simp only [Option.some.injEq, Prod.mk.injEq] at h
              exact absurd h.2.2 (by simp)
            · exact ih _ _ _ h

lemma entryLoop_some_bounds (df : List Bar) :
    ∀ fuel j k pr, entryLoop df fuel j = some (k, pr) → j ≤ k ∧ k < df.length := by
  intro fuel
  induction fuel with
  | zero => intro j k pr h; exact absurd h (by simp [entryLoop])
  | succ fuel ih =>
    intro j k pr h
    simp only [entryLoop] at h
    split at h
    case isFalse => exact absurd h (by simp)
    case isTrue hj =>
      split at h
      case isFalse hc => 
        have := ih _ _ _ h
        omega
      case isTrue hc =>
        split at h
        · exact absurd h (by simp)
        · split at h
          · exact absurd h (by simp)
          · split at h
            · exact absurd h (by simp)
            · simp only [Option.some.injEq, Prod.mk.injEq] at h
              exact ⟨le_of_eq h.1, h.1 ▸ hj⟩

/-- Everything a record returned by `processTrigger` satisfies by
construction: index ordering and bounds, date fields read off the bars, the
target/return/spread/risk-reward formulas, and the win-specific facts. -/
lemma processTrigger_spec (df : List Bar) (idx : ℕ) (r : TradeRecord)
    (h : processTrigger df idx = some r) :
    r.triggerIdx = idx ∧
    idx < r.entryIdx ∧ r.entryIdx ≤ r.exitIdx ∧ r.exitIdx < df.length ∧
    r.trigger_date = (bar df idx).date ∧
    r.entry_date = (bar df r.entryIdx).date ∧
    r.exit_date = (bar df r.exitIdx).date ∧
    r.target_price =
      calculate_target_price r.entry_price (bar df r.entryIdx).ma5 (bar df r.entryIdx).ma10 ∧
    r.return_pct = calculate_return r.entry_price r.exit_price ∧
    r.spread_ma5_10 =
      round2 (((bar df r.entryIdx).ma5 - (bar df r.entryIdx).ma10) / (bar df r.entryIdx).ma10 * 100) ∧
    (r.spread_ma5_10 = 0 → r.risk_to_reward = none) ∧
    (r.spread_ma5_10 ≠ 0 → r.risk_to_reward = some (round4 (r.return_pct / r.spread_ma5_10))) ∧
    (r.outcome = Outcome.win → r.entryIdx < r.exitIdx ∧ r.exit_price = r.target_price) := by
  rcases hfe : findEntry df idx with _ | ⟨eIdx, ePrice⟩
  · rw [processTrigger, hfe] at h
    exact absurd h (by simp)
  · rw [processTrigger, hfe] at h
    simp only at h
    split at h
    · exact absurd h (by simp)
    case isFalse hval =>
      rcases hex : exitScan df eIdx
          (calculate_target_price ePrice (bar df eIdx).ma5 (bar df eIdx).ma10) eIdx with
        _ | ⟨xIdx, xPrice, outc⟩
      · rw [hex] at h
        exact absurd h (by simp)
      · rw [hex] at h
        simp only [Option.some.injEq] at h
        subst h
        have hen : idx + 1 ≤ eIdx ∧ eIdx < df.length := by
          rw [findEntry] at hfe
          exact entryLoop_some_bounds df _ _ _ _ hfe
        have hxb : eIdx ≤ xIdx ∧ xIdx < df.length := by
          rw [exitScan] at hex
          exact exitLoop_some_bounds df _ _ _ _ _ _ _ hex
        refine ⟨rfl, Nat.lt_of_lt_of_le (Nat.lt_succ_self idx) hen.1, hxb.1, hxb.2,
          rfl, rfl, rfl, rfl, rfl, rfl, ?_, ?_, ?_⟩
        · intro h0
          simp only [if_pos h0]
        · intro h0
          simp only [if_neg h0]
        · intro hw
          have hw2 : outc = Outcome.win := hw
          rw [exitScan, hw2] at hex
          have hwf := exitLoop_win_facts df eIdx _ _ _ _ _ hex
          exact ⟨lt_of_le_of_ne hxb.1 (Ne.symm hwf.2), hwf.1⟩

/-- C1: on any bar the exit scan reaches where both the target condition and
the MA10 condition hold, the trade exits on that very bar with outcome
`loss`, at the bar's open when it opened below MA10 and at the bar's MA10
otherwise; in particular the outcome on such a bar is never `win`. -/
theorem c1_both_hit_is_loss (df : List Bar) (e : ℕ) (t : ℚ) (j : ℕ)
    (hj : j < df.length)
    (ht : (bar df j).high ≥ t)
    (hm : (bar df j).low ≤ (bar df j).ma10 ∨ (bar df j).open_ < (bar df j).ma10) :
    exitScan df e t j =
      some (j,
        (if (bar df j).open_ < (bar df j).ma10 then (bar df j).open_ else (bar df j).ma10),
        Outcome.loss) := by
  rw [exitScan, exitLoop]
  simp only
  rw [if_pos hj, if_pos ⟨ht, hm⟩]

/-- Witness for C1: the last bar of `lossDf` with target 100 satisfies both
conditions and exits there at MA10 with outcome `loss`. -/
theorem c1_witness :
    exitScan lossDf 0 100 4 =
      some (4,
        (if (bar lossDf 4).open_ < (bar lossDf 4).ma10 then (bar lossDf 4).open_
         else (bar lossDf 4).ma10),
        Outcome.loss) :=
  c1_both_hit_is_loss lossDf 0 100 4 (by norm_num [lossDf])
    (by norm_num [bar, lossDf, mkBar])
    (Or.inl (by norm_num [bar, lossDf, mkBar]))

/-- Every record the scan loop returns was already accumulated or was
produced by `processTrigger` at one of the remaining indices. -/
lemma scanLoop_mem (df : List Bar) (p : Params) (m : Option ℤ) :
    ∀ (l : List ℕ) (gate : Bool) (acc : List TradeRecord) r,
      r ∈ scanLoop df p m l gate acc →
      r ∈ acc ∨ ∃ i, i ∈ l ∧ processTrigger df i = some r := by
  intro l
  induction l with
  | nil =>
    intro gate acc r h
    rw [scanLoop.eq_def] at h
    exact Or.inl h
  | cons idx rest ih =>
    intro gate acc r h
    rw [scanLoop.eq_def] at h
    simp only at h
    split at h
    · rcases ih _ _ _ h with h1 | ⟨i, hi, hp⟩
      · exact Or.inl h1
      · exact Or.inr ⟨i, List.mem_cons_of_mem _ hi, hp⟩
    · split at h
      · rcases ih _ _ _ h with h1 | ⟨i, hi, hp⟩
        · exact Or.inl h1
        · exact Or.inr ⟨i, List.mem_cons_of_mem _ hi, hp⟩
      · split at h
        · rcases ih _ _ _ h with h1 | ⟨i, hi, hp⟩
          · exact Or.inl h1
          · exact Or.inr ⟨i, List.mem_cons_of_mem _ hi, hp⟩
        · split at h
          · split at h
            case h_1 rec hrec =>
              rcases ih _ _ _ h with h1 | ⟨i, hi, hp⟩
              · rcases List.mem_append.mp h1 with h2 | h2
                · exact Or.inl h2
                · rcases List.mem_singleton.mp h2 with rfl
                  exact Or.inr ⟨idx, List.mem_cons_self _ _, hrec⟩
              · exact Or.inr ⟨i, List.mem_cons_of_mem _ hi, hp⟩
            case h_2 =>
              rcases ih _ _ _ h with h1 | ⟨i, hi, hp⟩
              · exact Or.inl h1
              · exact Or.inr ⟨i, List.mem_cons_of_mem _ hi, hp⟩
          · rcases ih _ _ _ h with h1 | ⟨i, hi, hp⟩
            · exact Or.inl h1
            · exact Or.inr ⟨i, List.mem_cons_of_mem _ hi, hp⟩

/-- Every record of a backtest run comes from `processTrigger` at an
in-range index. -/
lemma run_backtest_mem (df : List Bar) (p : Params) (m : Option ℤ) (r : TradeRecord)
    (h : r ∈ run_backtest df p m) :
    ∃ i, i < df.length ∧ processTrigger df i = some r := by
  rcases scanLoop_mem df p m _ _ _ r h with h1 | ⟨i, hi, hp⟩
  · exact absurd h1 (List.not_mem_nil r)
  · exact ⟨i, List.mem_range.mp hi, hp⟩

/-- The re-arm-gate invariant of the main loop.  Walking the remaining
strictly increasing in-range indices with gate state `gate` and accumulated
records `acc`: if all accumulated triggers precede the remaining indices,
the accumulated records are pairwise in `trigChain`, and a cleared gate is
justified by a dip recorded after the last trigger and before the remaining
indices, then the final record list is pairwise in `trigChain`. -/
lemma scanLoop_chain (df : List Bar) (p : Params) (m : Option ℤ) :
    ∀ (l : List ℕ) (gate : Bool) (acc : List TradeRecord),
      (∀ i ∈ l, i < df.length) →
      List.Pairwise (· < ·) l →
      (∀ r ∈ acc, ∀ i ∈ l, r.triggerIdx < i) →
      List.Pairwise (trigChain df) acc →
      (gate = false →
        acc = [] ∨ ∃ c, DipAt df c ∧ (∀ r ∈ acc, r.triggerIdx < c) ∧ ∀ i ∈ l, c < i) →
      List.Pairwise (trigChain df) (scanLoop df p m l gate acc) := by
  intro l
  induction l with
  | nil =>
    intro gate acc _ _ _ hpw _
    rw [scanLoop.eq_def]
    exact hpw
  | cons idx rest ih =>
    intro gate acc hbound hsort hacc hpw hgate
    have hidx : idx < df.length := hbound idx (List.mem_cons_self _ _)
    have hrest_lt : ∀ i ∈ rest, idx < i := (List.pairwise_cons.mp hsort).1
    have hsort2 : List.Pairwise (· < ·) rest := (List.pairwise_cons.mp hsort).2
    have hbound2 : ∀ i ∈ rest, i < df.length :=
      fun i hi => hbound i (List.mem_cons_of_mem _ hi)
    have hacc2 : ∀ r ∈ acc, ∀ i ∈ rest, r.triggerIdx < i :=
      fun r hr i hi => hacc r hr i (List.mem_cons_of_mem _ hi)
    have hgate2 : gate = false →
        acc = [] ∨ ∃ c, DipAt df c ∧ (∀ r ∈ acc, r.triggerIdx < c) ∧ ∀ i ∈ rest, c < i := by
      intro hg
      refine (hgate hg).imp id ?_
      rintro ⟨c, h1, h2, h3⟩
      exact ⟨c, h1, h2, fun i hi => h3 i (List.mem_cons_of_mem _ hi)⟩
    rw [scanLoop.eq_def]
    simp only
    split
    · exact ih _ _ hbound2 hsort2 hacc2 hpw hgate2
    · split
      · exact ih _ _ hbound2 hsort2 hacc2 hpw hgate2
      · split
        case isTrue hskip =>
          exact ih _ _ hbound2 hsort2 hacc2 hpw
            (fun hg => absurd hskip.1 (by rw [hg]; simp))
        case isFalse hskip =>
          have hdip_of_gate : gate = true → (bar df idx).close < (bar df idx).ma20 := by
            intro hg
            by_contra hnd
            exact hskip ⟨hg, hnd⟩
          split
          · split
            case h_1 rec hrec =>
              have hrtrig : rec.triggerIdx = idx := (processTrigger_spec df idx rec hrec).1
              have hchain : ∀ a ∈ acc, trigChain df a rec := by
                intro a ha
                have hatrig : a.triggerIdx < idx := hacc a ha idx (List.mem_cons_self _ _)
                cases gate with
                | true =>
                  exact ⟨hrtrig ▸ hatrig, idx, hatrig, le_of_eq hrtrig.symm,
                    hidx, hdip_of_gate rfl⟩
                | false =>
                  rcases hgate rfl with hnil | ⟨c, hc1, hc2, hc3⟩
                  · rw [hnil] at ha
                    exact absurd ha (List.not_mem_nil a)
                  · have hcidx : c < idx := hc3 idx (List.mem_cons_self _ _)
                    exact ⟨hrtrig ▸ hatrig, c, hc2 a ha, hrtrig ▸ le_of_lt hcidx, hc1⟩
              refine ih _ _ hbound2 hsort2 ?_ ?_ (fun hg => absurd hg (by simp))
              · intro r hr i hi
                rcases List.mem_append.mp hr with h1 | h1
                · exact hacc2 r h1 i hi
                · rcases List.mem_singleton.mp h1 with rfl
                  exact hrtrig ▸ hrest_lt i hi
              · rw [List.pairwise_append]
                exact ⟨hpw, List.pairwise_singleton _ _,
                  fun a ha b hb => (List.mem_singleton.mp hb) ▸ hchain a ha⟩
            case h_2 =>
              refine ih _ _ hbound2 hsort2 hacc2 hpw ?_
              intro _
              cases gate with
              | true =>
                exact Or.inr ⟨idx, ⟨hidx, hdip_of_gate rfl⟩,
                  fun r hr => hacc r hr idx (List.mem_cons_self _ _), hrest_lt⟩
              | false => exact hgate2 rfl
          · refine ih _ _ hbound2 hsort2 hacc2 hpw ?_
            intro _
            cases gate with
            | true =>
              exact Or.inr ⟨idx, ⟨hidx, hdip_of_gate rfl⟩,
                fun r hr => hacc r hr idx (List.mem_cons_self _ _), hrest_lt⟩
            | false => exact hgate2 rfl

/-- The records of one pass are pairwise related by `trigChain`: strictly
increasing trigger indices with a qualifying MA20 dip between successive
triggers. -/
lemma run_backtest_pairwise (df : List Bar) (p : Params) (m : Option ℤ) :
    List.Pairwise (trigChain df) (run_backtest df p m) := by
  apply scanLoop_chain df p m (List.range df.length) false []
  · intro i hi
    exact List.mem_range.mp hi
  · exact List.pairwise_lt_range _
  · intro r hr
    exact absurd hr (List.not_mem_nil r)
  · exact List.Pairwise.nil
  · intro _
    exact Or.inl rfl

/-- The `trigChain` relation between the records at two positions of one
run's output. -/
lemma run_backtest_chain_get (df : List Bar) (p : Params) (m : Option ℤ)
    (i j : ℕ) (hij : i < j) (hj : j < (run_backtest df p m).length) :
    trigChain df ((run_backtest df p m).getD i default)
      ((run_backtest df p m).getD j default) := by
  have hpw := run_backtest_pairwise df p m
  rw [List.pairwise_iff_get] at hpw
  have hi : i < (run_backtest df p m).length := lt_trans hij hj
  have h := hpw ⟨i, hi⟩ ⟨j, hj⟩ (Fin.mk_lt_mk.mpr hij)
  rw [List.getD_eq_getElem _ _ hi, List.getD_eq_getElem _ _ hj]
  simpa using h

/-- C2: no trade record of a run over a strictly date-sorted series is a win
whose entry date equals its exit date; a target-only hit on the entry bar is
skipped, so every win exits strictly after its entry bar. -/
theorem c2_no_same_day_wins (df : List Bar) (p : Params) (m : Option ℤ)
    (hmono : DatesStrictMono df) :
    ∀ r ∈ run_backtest df p m, r.outcome = Outcome.win → r.entry_date ≠ r.exit_date := by
  intro r hr hw
  obtain ⟨i, _, hp⟩ := run_backtest_mem df p m r hr
  obtain ⟨_, _, _, hxlen, _, hed, hxd, _, _, _, _, _, hwin⟩ := processTrigger_spec df i r hp
  obtain ⟨hlt, _⟩ := hwin hw
  rw [hed, hxd]
  exact ne_of_lt (hmono r.exitIdx hxlen r.entryIdx hlt)

/-- Witness for C2: the single `winDf` trade is a win and its entry date 12
differs from its exit date 13. -/
theorem c2_witness :
    ((run_backtest winDf pnone none).getD 0 default).entry_date ≠
      ((run_backtest winDf pnone none).getD 0 default).exit_date :=
  c2_no_same_day_wins winDf pnone none (by decide)
    ((run_backtest winDf pnone none).getD 0 default)
    (by rw [winDf_run]; simp)
    (by rw [winDf_run]; simp [winRec])

/-- C5 (amended): trigger indices of successive trade records strictly
increase, so scanning never restarts from (or before) a completed trade's
trigger bar — though it does continue from the bar after the trigger, not
from the exit bar. -/
theorem c5_triggers_strictly_increase (df : List Bar) (p : Params) (m : Option ℤ)
    (i j : ℕ) (hij : i < j) (hj : j < (run_backtest df p m).length) :
    ((run_backtest df p m).getD i default).triggerIdx <
      ((run_backtest df p m).getD j default).triggerIdx :=
  (run_backtest_chain_get df p m i j hij hj).1

/-- Witness for C5: the two `lossDf` trades have strictly increasing
trigger indices 1 < 3. -/
theorem c5_witness :
    ((run_backtest lossDf pnone none).getD 0 default).triggerIdx <
      ((run_backtest lossDf pnone none).getD 1 default).triggerIdx :=
  c5_triggers_strictly_increase lossDf pnone none 0 1 (by decide)
    (by rw [lossDf_run]; decide)

/-- Counterexample for C5 as stated: on `lossDf` the second trade's trigger
index 3 lies strictly between the first trade's trigger index 1 and exit
index 4, so a bar strictly inside a completed trade's trigger-to-exit window
was considered again and became a new trigger. -/
theorem c5_counterexample :
    (run_backtest lossDf pnone none).length = 2 ∧
    ((run_backtest lossDf pnone none).getD 0 default).triggerIdx <
      ((run_backtest lossDf pnone none).getD 1 default).triggerIdx ∧
    ((run_backtest lossDf pnone none).getD 1 default).triggerIdx <
      ((run_backtest lossDf pnone none).getD 0 default).exitIdx := by
  rw [lossDf_run]
  refine ⟨rfl, ?_, ?_⟩ <;> simp [lossRec1, lossRec2]

/-- C6 (amended): any two records of one run whose trigger-to-exit windows
overlap are separated by a qualifying MA20 dip lying strictly after the
earlier trigger and no later than the later trigger (the dip bar may be the
later trigger bar itself). -/
theorem c6_rearm_requires_dip (df : List Bar) (p : Params) (m : Option ℤ)
    (i j : ℕ) (hij : i < j) (hj : j < (run_backtest df p m).length)
    (_hoverlap : ((run_backtest df p m).getD j default).triggerIdx ≤
      ((run_backtest df p m).getD i default).exitIdx) :
    ∃ c, ((run_backtest df p m).getD i default).triggerIdx < c ∧
      c ≤ ((run_backtest df p m).getD j default).triggerIdx ∧ DipAt df c := by
  obtain ⟨_, c, h1, h2, h3⟩ := run_backtest_chain_get df p m i j hij hj
  exact ⟨c, h1, h2, h3⟩

/-- Witness for C6: the two overlapping `lossDf` trades, whose separating
dip is the bar at index 3. -/
theorem c6_witness :
    ∃ c, ((run_backtest lossDf pnone none).getD 0 default).triggerIdx < c ∧
      c ≤ ((run_backtest lossDf pnone none).getD 1 default).triggerIdx ∧
      DipAt lossDf c :=
  c6_rearm_requires_dip lossDf pnone none 0 1 (by decide)
    (by rw [lossDf_run]; decide)
    (by rw [lossDf_run]; decide)

/-- Counterexample for C6 as stated: on `lossDf` the two trade windows
overlap (trigger 3 is at most exit 4), yet no bar strictly between the two
trigger indices (only index 2 is) closes below its MA20: the only
qualifying dip is the second trigger bar itself. -/
theorem c6_counterexample :
    (run_backtest lossDf pnone none).length = 2 ∧
    ((run_backtest lossDf pnone none).getD 1 default).triggerIdx ≤
      ((run_backtest lossDf pnone none).getD 0 default).exitIdx ∧
    ∀ c, c < ((run_backtest lossDf pnone none).getD 1 default).triggerIdx →
      ((run_backtest lossDf pnone none).getD 0 default).triggerIdx < c →
      ¬ ((bar lossDf c).close < (bar lossDf c).ma20) := by
  rw [lossDf_run]
  refine ⟨rfl, by simp [lossRec1, lossRec2], ?_⟩
  intro c hc1 hc2
  simp only [lossRec1, lossRec2, List.getD_cons_zero, List.getD_cons_succ] at hc1 hc2
  interval_cases c
  norm_num [bar, lossDf, mkBar]

/-- C8 (amended): a recorded risk/reward is `none` exactly when the recorded
MA5-MA10 spread is zero (the division is never performed then), and
otherwise equals the return divided by the spread rounded to 4 decimal
places. -/
theorem c8_risk_reward_guard (df : List Bar) (p : Params) (m : Option ℤ) :
    ∀ r ∈ run_backtest df p m,
      (r.spread_ma5_10 = 0 → r.risk_to_reward = none) ∧
      (r.spread_ma5_10 ≠ 0 →
        r.risk_to_reward = some (round4 (r.return_pct / r.spread_ma5_10))) := by
  intro r hr
  obtain ⟨i, _, hp⟩ := run_backtest_mem df p m r hr
  obtain ⟨_, _, _, _, _, _, _, _, _, _, hz, hnz, _⟩ := processTrigger_spec df i r hp
  exact ⟨hz, hnz⟩

/-- Witness for C8: the `rrDf` trade has nonzero spread 3.09 and its
recorded risk/reward is the rounded quotient. -/
theorem c8_witness :
    ((run_backtest rrDf pnone none).getD 0 default).risk_to_reward =
      some (round4 (((run_backtest rrDf pnone none).getD 0 default).return_pct /
        ((run_backtest rrDf pnone none).getD 0 default).spread_ma5_10)) :=
  (c8_risk_reward_guard rrDf pnone none
    ((run_backtest rrDf pnone none).getD 0 default)
    (by rw [rrDf_run]; simp)).2
    (by rw [rrDf_run]; norm_num [rrRec])

/-- Counterexample for C8 as stated: the `rrDf` trade has spread 3.09 and
return -3, and its recorded risk/reward -0.9709 is not the exact quotient
-100/103. -/
theorem c8_counterexample :
    ((run_backtest rrDf pnone none).getD 0 default).spread_ma5_10 ≠ 0 ∧
    ((run_backtest rrDf pnone none).getD 0 default).risk_to_reward ≠
      some (((run_backtest rrDf pnone none).getD 0 default).return_pct /
        ((run_backtest rrDf pnone none).getD 0 default).spread_ma5_10) := by
  rw [rrDf_run]
  simp only [List.getD_cons_zero, rrRec, ne_eq, Option.some.injEq]
  norm_num

/-- C10: the target price is the entry price times one plus the entry bar's
MA5-MA10 spread, rounded to 2 decimals; a win's exit price equals exactly
this rounded target; and the recorded return is the percent return rounded
to 2 decimals. -/
theorem c10_target_and_rounding (df : List Bar) (p : Params) (m : Option ℤ) :
    (∀ e m5 m10 : ℚ,
      calculate_target_price e m5 m10 = round2 (e * (1 + (m5 - m10) / m10))) ∧
    ∀ r ∈ run_backtest df p m,
      r.target_price = round2 (r.entry_price *
        (1 + ((bar df r.entryIdx).ma5 - (bar df r.entryIdx).ma10) /
          (bar df r.entryIdx).ma10)) ∧
      (r.outcome = Outcome.win → r.exit_price = r.target_price) ∧
      r.return_pct = round2 ((r.exit_price - r.entry_price) / r.entry_price * 100) := by
  refine ⟨fun e m5 m10 => rfl, ?_⟩
  intro r hr
  obtain ⟨i, _, hp⟩ := run_backtest_mem df p m r hr
  obtain ⟨_, _, _, _, _, _, _, htp, hret, _, _, _, hwin⟩ := processTrigger_spec df i r hp
  exact ⟨htp, fun hw => (hwin hw).2, hret⟩

/-- Witness for C10: the `winDf` win trade exits exactly at its recorded
target price 108.16. -/
theorem c10_witness :
    ((run_backtest winDf pnone none).getD 0 default).exit_price =
      ((run_backtest winDf pnone none).getD 0 default).target_price :=
  ((c10_target_and_rounding winDf pnone none).2
    ((run_backtest winDf pnone none).getD 0 default)
    (by rw [winDf_run]; simp)).2.1
    (by rw [winDf_run]; simp [winRec])

/-- C3 (amended): for a bar after the first, the source trigger predicate
holds exactly when all the spec's conditions hold with the previous bar's
percent change strictly above -10 (the source comparison is strict, so a
previous-day change of exactly -10 disqualifies the bar). -/
theorem c3_trigger_iff (df : List Bar) (p : Params) (idx : ℕ)
    (_h1 : 1 ≤ idx) (_h2 : idx < df.length) :
    isTrigger df p idx = true ↔ specTriggerAmended df p idx := by
  unfold isTrigger specTriggerAmended specTriggerBase
  simp only [Bool.and_eq_true, decide_eq_true_eq, Bool.not_eq_true',
    decide_eq_false_iff_not, not_lt, ge_iff_le, Bool.not_eq_true]
  tauto

/-- Witness for C3: bar 1 of `winDf` satisfies both sides of the amended
equivalence. -/
theorem c3_witness :
    1 ≤ 1 ∧ 1 < winDf.length ∧
      (isTrigger winDf pnone 1 = true ↔ specTriggerAmended winDf pnone 1) :=
  ⟨le_refl 1, by norm_num [winDf],
    c3_trigger_iff winDf pnone 1 (le_refl 1) (by norm_num [winDf])⟩

/-- Counterexample for C3 as stated: on `c3Df` the bar at index 1 satisfies
the claim's description (the previous bar's change -10 is "not below -10")
yet the source trigger predicate rejects it. -/
theorem c3_counterexample :
    specTriggerC3 c3Df pnone 1 ∧ isTrigger c3Df pnone 1 = false := by
  constructor
  · refine ⟨⟨?_, ?_, ?_, ?_, ?_, ?_⟩, ?_⟩ <;>
      norm_num [thresholdsPass, passMin, passMax, pnone, hasThreeConsecutiveZeros,
        zeroRun, past20Rates, bar, c3Df, mkBar, range_one_eq]
  · norm_num [isTrigger, thresholdsPass, passMin, passMax, pnone, bar, c3Df, mkBar]

/-- C9: each enabled threshold comparison of the Trigger Scanner is strict,
so a bar whose value exactly equals an enabled minimum or maximum fails that
condition and cannot be a trigger, while a disabled (`none`) threshold
always passes. -/
theorem c9_thresholds_strict (p : Params) (b : Bar)
    (h : p.min_rate = some b.rate ∨ p.max_rate = some b.rate ∨
         p.min_volume = some b.value ∨ p.max_volume = some b.value ∨
         p.min_foreign = some b.foreign ∨ p.min_institution = some b.institution) :
    thresholdsPass p b = false ∧
    (∀ df idx, bar df idx = b → isTrigger df p idx = false) ∧
    (∀ v : ℚ, passMin none v = true ∧ passMax none v = true) := by
  have htp : thresholdsPass p b = false := by
    rcases h with h | h | h | h | h | h <;>
      simp [thresholdsPass, passMin, passMax, h, lt_irrefl]
  refine ⟨htp, ?_, fun v => ⟨rfl, rfl⟩⟩
  intro df idx hb
  rw [isTrigger, hb, htp]
  simp

/-- Witness for C9: a parameter set whose enabled minimum rate exactly
equals the bar's percent change fails the threshold conjunction. -/
theorem c9_witness :
    thresholdsPass { pnone with min_rate := some ((bar winDf 1).rate) } (bar winDf 1) = false :=
  (c9_thresholds_strict { pnone with min_rate := some ((bar winDf 1).rate) } (bar winDf 1)
    (Or.inl rfl)).1

lemma entryLoop_at_candidate (df : List Bar) (fuel j : ℕ)
    (hj : j < df.length) (hc : crossedDownMa5 (bar df j) = true) :
    entryLoop df (fuel + 1) j = (entryDecisionSpec (bar df j)).map (fun pr => (j, pr)) := by
  rw [entryLoop]
  rw [if_pos hj, if_pos hc]
  unfold entryDecisionSpec is_valid_entry
  split_ifs <;> simp

lemma entryLoop_reach_candidate (df : List Bar) :
    ∀ fuel s j, s ≤ j → j < df.length → df.length ≤ s + fuel →
      crossedDownMa5 (bar df j) = true →
      (∀ k, s ≤ k → k < j → crossedDownMa5 (bar df k) = false) →
      entryLoop df fuel s = (entryDecisionSpec (bar df j)).map (fun pr => (j, pr)) := by
  intro fuel
  induction fuel with
  | zero =>
    intro s j h1 h2 h3 _ _
    omega
  | succ fuel ih =>
    intro s j h1 h2 h3 hc hnone
    rcases eq_or_lt_of_le h1 with rfl | hlt
    · exact entryLoop_at_candidate df fuel s h2 hc
    · rw [entryLoop]
      rw [if_pos (show s < df.length by omega)]
      rw [if_neg (by simp [hnone s le_rfl hlt])]
      exact ih (s + 1) j (by omega) h2 (by omega) hc
        (fun k hk1 hk2 => hnone k (by omega) hk2)

lemma entryLoop_no_candidate (df : List Bar) :
    ∀ fuel s, (∀ k, s ≤ k → k < df.length → crossedDownMa5 (bar df k) = false) →
      entryLoop df fuel s = none := by
  intro fuel
  induction fuel with
  | zero =>
    intro s _
    rw [entryLoop]
  | succ fuel ih =>
    intro s hnone
    rw [entryLoop]
    by_cases hs : s < df.length
    · rw [if_pos hs, if_neg (by simp [hnone s le_rfl hs])]
      exact ih (s + 1) (fun k hk1 hk2 => hnone k (by omega) hk2)
    · rw [if_neg hs]

lemma crossedDownMa5_iff (b : Bar) : crossedDownMa5 b = true ↔ isEntryCandidate b := by
  simp [crossedDownMa5, isEntryCandidate, or_assoc]

/-- C4: the Entry Resolver stops at the first bar after the trigger with any
of low, high, open, close below its MA5 and resolves it exactly by the
spec's decision table (`entryDecisionSpec`: abandon on open below MA10,
price as open/MA5/open, abandon on spread below 3% or broken 정배열); with
no candidate through series end there is no entry.  The `Option` result
makes a trigger yield at most one entry. -/
theorem c4_entry_resolution (df : List Bar) (t : ℕ) :
    (∀ j, t < j → j < df.length → isEntryCandidate (bar df j) →
      (∀ k, k < j → t < k → ¬ isEntryCandidate (bar df k)) →
      findEntry df t = (entryDecisionSpec (bar df j)).map (fun pr => (j, pr))) ∧
    ((∀ j, j < df.length → t < j → ¬ isEntryCandidate (bar df j)) →
      findEntry df t = none) := by
  constructor
  · intro j hj1 hj2 hc hfirst
    rw [findEntry]
    refine entryLoop_reach_candidate df (df.length + 1) (t + 1) j (by omega) hj2 (by omega)
      ((crossedDownMa5_iff _).mpr hc) ?_
    intro k hk1 hk2
    have hnc := hfirst k hk2 (by omega)
    exact Bool.eq_false_iff.mpr (fun hcc => hnc ((crossedDownMa5_iff _).mp hcc))
  · intro hnone
    rw [findEntry]
    refine entryLoop_no_candidate df (df.length + 1) (t + 1) ?_
    intro k hk1 hk2
    have hnc := hnone k hk2 (by omega)
    exact Bool.eq_false_iff.mpr (fun hcc => hnc ((crossedDownMa5_iff _).mp hcc))

/-- Witness for C4: on `winDf`, bar 2 is the first entry candidate after the
trigger at 1, and the resolver returns the spec decision there (entry at MA5
price 104). -/
theorem c4_witness :
    findEntry winDf 1 = (entryDecisionSpec (bar winDf 2)).map (fun pr => (2, pr)) :=
  (c4_entry_resolution winDf 1).1 2 (by norm_num) (by norm_num [winDf])
    (by norm_num [isEntryCandidate, bar, winDf, mkBar])
    (fun k hk2 hk1 => by omega)

lemma foldl_min_le (f : TradeRecord → ℤ) :
    ∀ (l : List TradeRecord) (init : ℤ),
      (l.foldl (fun acc x => min acc (f x)) init) ≤ init ∧
      ∀ r ∈ l, (l.foldl (fun acc x => min acc (f x)) init) ≤ f r := by
  intro l
  induction l with
  | nil =>
    intro init
    exact ⟨le_refl _, fun r hr => absurd hr (List.not_mem_nil r)⟩
  | cons a as ih =>
    intro init
    constructor
    · exact le_trans (ih (min init (f a))).1 (min_le_left _ _)
    · intro r hr
      rcases List.mem_cons.mp hr with rfl | hr2
      · exact le_trans (ih (min init (f r))).1 (min_le_right _ _)
      · exact (ih (min init (f a))).2 r hr2

lemma le_foldl_max (f : TradeRecord → ℤ) :
    ∀ (l : List TradeRecord) (init : ℤ),
      init ≤ (l.foldl (fun acc x => max acc (f x)) init) ∧
      ∀ r ∈ l, f r ≤ (l.foldl (fun acc x => max acc (f x)) init) := by
  intro l
  induction l with
  | nil =>
    intro init
    exact ⟨le_refl _, fun r hr => absurd hr (List.not_mem_nil r)⟩
  | cons a as ih =>
    intro init
    constructor
    · exact le_trans (le_max_left _ _) (ih (max init (f a))).1
    · intro r hr
      rcases List.mem_cons.mp hr with rfl | hr2
      · exact le_trans (le_max_right _ _) (ih (max init (f r))).1
      · exact (ih (max init (f a))).2 r hr2

lemma minEntry_le (recs : List TradeRecord) (r : TradeRecord) (hr : r ∈ recs) :
    minEntry recs ≤ r.entry_date := by
  cases recs with
  | nil => exact absurd hr (List.not_mem_nil r)
  | cons a as =>
    rcases List.mem_cons.mp hr with rfl | hr2
    · exact (foldl_min_le (fun x => x.entry_date) as r.entry_date).1
    · exact (foldl_min_le (fun x => x.entry_date) as a.entry_date).2 r hr2

lemma le_maxEntry (recs : List TradeRecord) (r : TradeRecord) (hr : r ∈ recs) :
    r.entry_date ≤ maxEntry recs := by
  cases recs with
  | nil => exact absurd hr (List.not_mem_nil r)
  | cons a as =>
    rcases List.mem_cons.mp hr with rfl | hr2
    · exact (le_foldl_max (fun x => x.entry_date) as r.entry_date).1
    · exact (le_foldl_max (fun x => x.entry_date) as a.entry_date).2 r hr2

lemma mem_dateRange (a b d : ℤ) : d ∈ dateRange a b ↔ a ≤ d ∧ d ≤ b := by
  constructor
  · intro hd
    rw [dateRange, List.mem_map] at hd
    obtain ⟨k, hk, hkd⟩ := hd
    rw [List.mem_range] at hk
    have hk2 : (k : ℤ) < b + 1 - a := Int.lt_toNat.mp hk
    omega
  · intro hd
    rw [dateRange, List.mem_map]
    refine ⟨(d - a).toNat, ?_, ?_⟩
    · rw [List.mem_range, Int.lt_toNat, Int.toNat_of_nonneg (by omega : (0:ℤ) ≤ d - a)]
      omega
    · rw [Int.toNat_of_nonneg (by omega : (0:ℤ) ≤ d - a)]
      omega

lemma mem_engineIndex (recs : List TradeRecord) (d : ℤ) :
    d ∈ engineIndex recs ↔ ∃ r ∈ recs, r.entry_date = d := by
  unfold engineIndex
  rw [List.mem_filter]
  simp only [List.any_eq_true, beq_iff_eq]
  constructor
  · rintro ⟨_, r, hr, hrd⟩
    exact ⟨r, hr, hrd⟩
  · rintro ⟨r, hr, hrd⟩
    refine ⟨(mem_dateRange _ _ _).mpr ⟨?_, ?_⟩, r, hr, hrd⟩
    · rw [← hrd]
      exact minEntry_le recs r hr
    · rw [← hrd]
      exact le_maxEntry recs r hr

/-- C7 (amended): the engine's daily summary is indexed by exactly the
distinct entry dates present (sorted), with `Total` and `Average` rows
appended; it is the First-Day tester's variant that is indexed over the full
calendar span from the earliest entry to the latest exit, with every
per-entry-date statistic of a date without entries filled 0, and the same
two rows appended. -/
theorem c7_daily_summary_structure (recs : List TradeRecord) :
    ((generate_daily_summary recs).map (fun row => row.label) =
      (engineIndex recs).map RowLabel.date ++ [RowLabel.total, RowLabel.average]) ∧
    (∀ d : ℤ, d ∈ engineIndex recs ↔ ∃ r ∈ recs, r.entry_date = d) ∧
    ((firstDay_generate_daily_summary recs).map (fun row => row.label) =
      (dateRange (minEntry recs) (maxExit recs)).map RowLabel.date ++
        [RowLabel.total, RowLabel.average]) ∧
    (∀ d : ℤ, (∀ r ∈ recs, r.entry_date ≠ d) →
      (toolRow recs d).returnSum = 0 ∧ (toolRow recs d).nTrades = 0 ∧
      (toolRow recs d).maxGainAvg = 0 ∧ (toolRow recs d).maxDrawdownAvg = 0 ∧
      (toolRow recs d).spreadAvg = 0 ∧ (toolRow recs d).rrSum = 0 ∧
      (toolRow recs d).rrAvg = some 0 ∧ (toolRow recs d).nBought = 0) := by
  refine ⟨?_, mem_engineIndex recs, ?_, ?_⟩
  · simp [generate_daily_summary, List.map_map, Function.comp, groupRow,
      totalRow, averageRow]
  · simp [firstDay_generate_daily_summary, List.map_map, Function.comp, toolRow,
      totalRow, averageRow]
  · intro d hd
    have hg : entriesOn recs d = [] := by
      rw [entriesOn, List.filter_eq_nil_iff]
      intro r hr
      simp [hd r hr]
    refine ⟨?_, ?_, ?_, ?_, ?_, ?_, ?_, ?_⟩ <;>
      norm_num [toolRow, hg, round2]

/-- Witness for C7: the two-record table `recs2` instantiates the amended
statement, and its tool row at the empty date 11 carries zero statistics. -/
theorem c7_witness :
    ((generate_daily_summary recs2).map (fun row => row.label) =
      (engineIndex recs2).map RowLabel.date ++ [RowLabel.total, RowLabel.average]) ∧
    (toolRow recs2 11).returnSum = 0 ∧ (toolRow recs2 11).rrAvg = some 0 :=
  ⟨(c7_daily_summary_structure recs2).1,
   ((c7_daily_summary_structure recs2).2.2.2 11 (by decide)).1,
   ((c7_daily_summary_structure recs2).2.2.2 11 (by decide)).2.2.2.2.2.2.1⟩

/-- Counterexample for C7 as stated: the engine's daily summary of `recs2`
spans entry dates 10..14 by the claim's reading, yet it has no row labelled
with the in-span date 11, because the engine never reindexes over the
calendar span. -/
theorem c7_counterexample :
    minEntry recs2 = 10 ∧ maxExit recs2 = 14 ∧
    ¬ (RowLabel.date 11 ∈ (generate_daily_summary recs2).map (fun row => row.label)) := by
  refine ⟨by decide, by decide, ?_⟩
  have hidx : engineIndex recs2 = [10, 12] := by decide
  simp [generate_daily_summary, hidx, groupRow, totalRow, averageRow]
